import Mathlib

/-!
Verification of the Process I/O Synchronization Bridge and Range-Aware
Artifact Streaming of `server.py` (Matrix-Game-2).

The Python source is shallowly embedded: the module-level mutable state
(`_ready_mouse`, `_ready_move`, `_await_image`, `_in_q`, `proc`,
`_current_image_path`) becomes explicit state records, the reader/writer
threads become step functions driven by explicit event schedules, and the
HTTP handlers become pure functions on those records.  Paths are modelled
as lists of components of an already-resolved absolute path (the code
resolves every path with `pathlib.Path(...).resolve()` before comparing).
-/

namespace Matrix2Srv

/-! ### Character/string primitives mirroring the Python string operations -/

/-- Python `l.startswith(pat)` on character lists. -/
def startsW : List Char → List Char → Bool
  | [], _ => true
  | _ :: _, [] => false
  | p :: ps, c :: cs => p == c && startsW ps cs

/-- Python `pat in l` (substring containment). -/
def hasSub (pat : List Char) : List Char → Bool
  | [] => pat.isEmpty
  | c :: cs => startsW pat (c :: cs) || hasSub pat cs

/-- Python `s.lower()` restricted to ASCII case mapping (every phrase the server
matches against is ASCII). -/
def lowerData (s : String) : List Char := s.data.map Char.toLower

/-! ### Prompt Classifier (from `_reader_thread`, lines 87-111) -/

/-- The `_IMG_PROMPT_TOKENS` list from the source. -/
def imgPromptTokens : List String :=
  ["input the image path", "image path:", "please input the image",
   "please input image", "enter image path", "path of the image"]

/-- The line matches one of `_IMG_PROMPT_TOKENS` (checked first in the reader). -/
def isImageLine (s : String) : Bool :=
  imgPromptTokens.any fun tok => hasSub tok.data (lowerData s)

/-- The line contains the mouse-prompt phrase. -/
def isMouseLine (s : String) : Bool :=
  hasSub "please input the mouse action".data (lowerData s)

/-- The line contains one of the movement-prompt phrases. -/
def isMoveLine (s : String) : Bool :=
  hasSub "movement action".data (lowerData s) ||
  hasSub "press [w, s, a, d, q]".data (lowerData s)

/-- The classified meaning of one line of child output. -/
inductive Signal where
  | image
  | mouse
  | move
  | skip
  deriving DecidableEq, Repr

/-- Classification of one child output line, in the order the reader
checks the phrases: image tokens first, then the mouse prompt, then the
movement prompts, else no signal. -/
def classifyLine (s : String) : Signal :=
  if isImageLine s then .image
  else if isMouseLine s then .mouse
  else if isMoveLine s then .move
  else .skip

/-! ### Shared flag state (`_ready_mouse`, `_ready_move`, `_await_image`) -/

structure Flags where
  readyMouse : Bool
  readyMove : Bool
  awaitImage : Bool
  deriving DecidableEq, Repr

/-- Effect of the reader thread on the shared flags for one output line
(lines 94-111 of the source). -/
def readerUpdate (f : Flags) (s : String) : Flags :=
  match classifyLine s with
  | .image => ⟨false, false, true⟩
  | .mouse => ⟨true, false, f.awaitImage⟩
  | .move => ⟨f.readyMouse, true, f.awaitImage⟩
  | .skip => f

example : classifyLine "Please input the image path" = .image := by decide
example : classifyLine "Please input the mouse action" = .mouse := by decide
example : classifyLine "PRESS [W, S, A, D, Q]" = .move := by decide
example : classifyLine "step 3/50 rendering" = .skip := by decide

/-! ### The child stdin pipe and `_send_line` (lines 78-84)

`_send_line` guards on `if p.stdin:` and otherwise writes and flushes with
no exception handler, so a broken-pipe error raised by the write escapes
`_send_line`.  The result is the list of lines actually written. -/

/-- Observable state of the child's stdin from the server's side. -/
inductive Pipe where
  | stdinMissing
  | live
  | broken
  deriving DecidableEq, Repr

/-- Model of `_send_line`: skipped silently when `p.stdin` is falsy, performs the
write when the pipe is live, and lets the broken-pipe exception propagate
(there is no try/except in `_send_line`). -/
def sendLine (p : Pipe) (text : String) : Except String (List String) :=
  match p with
  | .stdinMissing => .ok []
  | .live => .ok [text]
  | .broken => .error "BrokenPipeError"

/-- Python `x or default` on strings: the empty string is falsy. -/
def pyOr (s d : String) : String := if s = "" then d else s

/-! ### Writer Loop: per-command dispatch (lines 145-166)

After dequeuing a command `(mouse, move)` the writer busy-waits until
`_ready_mouse`, sends the mouse token, then sets `_ready_mouse = False`
and `_ready_move = True` itself, busy-waits until `_ready_move`, sends
the move token and clears `_ready_move`.  We model one such dispatch as a
small-step machine interleaved with reader events: an `Event.line s` is
the reader thread processing one child output line, an `Event.poll` is
one iteration of the writer's busy-wait (which fires the pending send
when its flag is up). -/

inductive WPhase where
  | waitMouse
  | waitMove
  | done
  deriving DecidableEq, Repr

structure DState where
  flags : Flags
  phase : WPhase
  writes : List String
  deriving DecidableEq, Repr

inductive Event where
  | line (s : String)
  | poll
  deriving DecidableEq, Repr

/-- One interleaving step of the dispatch of a single command
`(mouse, move)`, with a live pipe. -/
def dispatchStep (mouse move : String) (st : DState) (e : Event) : DState :=
  match e with
  | .line s => ⟨readerUpdate st.flags s, st.phase, st.writes⟩
  | .poll =>
    match st.phase with
    | .waitMouse =>
      if st.flags.readyMouse then
        ⟨⟨false, true, st.flags.awaitImage⟩, .waitMove,
          st.writes ++ [pyOr mouse "U"]⟩
      else st
    | .waitMove =>
      if st.flags.readyMove then
        ⟨⟨st.flags.readyMouse, false, st.flags.awaitImage⟩, .done,
          st.writes ++ [pyOr move "Q"]⟩
      else st
    | .done => st

/-- A whole interleaved execution of one command dispatch. -/
def dispatchRun (mouse move : String) (st : DState) (evs : List Event) : DState :=
  evs.foldl (dispatchStep mouse move) st

/-- Writer state at the moment a command is dequeued: no write performed
yet for this command, waiting for the mouse prompt; the mouse-ready flag
is down (it was consumed by the previous dispatch or reset on restart). -/
def freshDispatch (rm ai : Bool) : DState :=
  ⟨⟨false, rm, ai⟩, .waitMouse, []⟩

/-- Does the schedule contain a reader line classified as a mouse prompt? -/
def hasMouseLine (evs : List Event) : Bool :=
  evs.any fun e =>
    match e with
    | .line s => classifyLine s == Signal.mouse
    | .poll => false

/-- Does the schedule contain a reader line classified as a movement prompt? -/
def hasMoveLine (evs : List Event) : Bool :=
  evs.any fun e =>
    match e with
    | .line s => classifyLine s == Signal.move
    | .poll => false

/-- The prefix of a command's two writes performed by each phase. -/
def cmdWrites (mouse move : String) : WPhase → List String
  | .waitMouse => []
  | .waitMove => [pyOr mouse "U"]
  | .done => [pyOr mouse "U", pyOr move "Q"]

theorem dispatchStep_writes (mouse move : String) (st : DState) (e : Event)
    (h : st.writes = cmdWrites mouse move st.phase) :
    (dispatchStep mouse move st e).writes =
      cmdWrites mouse move (dispatchStep mouse move st e).phase := by
  cases e with
  | line s => simpa [dispatchStep] using h
  | poll =>
    cases hp : st.phase with
    | waitMouse =>
      rw [hp] at h
      by_cases hr : st.flags.readyMouse <;>
        simp [dispatchStep, hp, hr, cmdWrites, cmdWrites] at h ⊢ <;> simp [h]
    | waitMove =>
      rw [hp] at h
      by_cases hr : st.flags.readyMove <;>
        simp [dispatchStep, hp, hr, cmdWrites] at h ⊢ <;> simp [h]
    | done =>
      rw [hp] at h
      simpa [dispatchStep, hp, cmdWrites] using h

theorem dispatchRun_writes (mouse move : String) (evs : List Event) :
    ∀ st : DState, st.writes = cmdWrites mouse move st.phase →
      (dispatchRun mouse move st evs).writes =
        cmdWrites mouse move (dispatchRun mouse move st evs).phase := by
  induction evs with
  | nil => intro st h; simpa [dispatchRun] using h
  | cons e evs ih =>
    intro st h
    have h1 := dispatchStep_writes mouse move st e h
    simpa [dispatchRun, List.foldl_cons] using ih (dispatchStep mouse move st e) h1

/-- If no reader line in the schedule is classified as a mouse prompt and
the mouse-ready flag starts down, the dispatch never leaves its first
busy-wait: nothing is written. -/
theorem dispatchRun_no_mouse_signal (mouse move : String) :
    ∀ evs : List Event, hasMouseLine evs = false →
    ∀ st : DState, st.phase = .waitMouse → st.flags.readyMouse = false →
      (dispatchRun mouse move st evs).writes = st.writes ∧
      (dispatchRun mouse move st evs).phase = .waitMouse ∧
      (dispatchRun mouse move st evs).flags.readyMouse = false := by
  intro evs
  induction evs with
  | nil => intro _ st hp hr; exact ⟨rfl, hp, hr⟩
  | cons e evs ih =>
    intro hev st hp hr
    simp only [hasMouseLine, List.any_cons, Bool.or_eq_false_iff] at hev
    have hev2 : hasMouseLine evs = false := hev.2
    cases e with
    | line s =>
      have hcl : classifyLine s ≠ Signal.mouse := by
        have := hev.1
        simp only [beq_eq_false_iff_ne, ne_eq] at this
        exact this
      have hstep : dispatchStep mouse move st (.line s) =
          ⟨readerUpdate st.flags s, st.phase, st.writes⟩ := rfl
      have hrm : (readerUpdate st.flags s).readyMouse = false := by
        unfold readerUpdate
        cases h : classifyLine s with
        | image => simp
        | mouse => exact absurd h hcl
        | move => simpa using hr
        | skip => simpa using hr
      have := ih hev2 ⟨readerUpdate st.flags s, st.phase, st.writes⟩ hp hrm
      simpa [dispatchRun, List.foldl_cons, hstep] using this
    | poll =>
      have hstep : dispatchStep mouse move st .poll = st := by
        simp [dispatchStep, hp, hr]
      have := ih hev2 st hp hr
      simpa [dispatchRun, List.foldl_cons, hstep] using this

/-- Within one dispatched command, under every interleaving with the
reader: the writes are a prefix of `[primary, secondary]` — the primary
token always strictly precedes the secondary token — and if the reader
never classifies a mouse-prompt (primary-ready) line, nothing at all is
written: the primary write is gated on a reader-observed signal.  (The
secondary write is NOT so gated: see the counterexample theorem.) -/
theorem writer_dispatch_order (mouse move : String) (rm ai : Bool)
    (evs : List Event) :
    ((dispatchRun mouse move (freshDispatch rm ai) evs).writes = [] ∨
     (dispatchRun mouse move (freshDispatch rm ai) evs).writes = [pyOr mouse "U"] ∨
     (dispatchRun mouse move (freshDispatch rm ai) evs).writes =
       [pyOr mouse "U", pyOr move "Q"]) ∧
    (hasMouseLine evs = false →
      (dispatchRun mouse move (freshDispatch rm ai) evs).writes = []) := by
  constructor
  · have h0 : (freshDispatch rm ai).writes =
        cmdWrites mouse move (freshDispatch rm ai).phase := rfl
    have h := dispatchRun_writes mouse move evs (freshDispatch rm ai) h0
    rw [h]
    cases (dispatchRun mouse move (freshDispatch rm ai) evs).phase <;>
      simp [cmdWrites]
  · intro hev
    exact (dispatchRun_no_mouse_signal mouse move evs hev
      (freshDispatch rm ai) rfl rfl).1

theorem writer_dispatch_order_witness :
    hasMouseLine [Event.poll] = false ∧
    (dispatchRun "I" "W" (freshDispatch false false) [Event.poll]).writes = [] :=
  ⟨by decide, (writer_dispatch_order "I" "W" false false [Event.poll]).2 (by decide)⟩

/-- A schedule in which the child announces only the mouse prompt and the
writer then polls twice; the reader never emits a movement-prompt line. -/
def speculativeSchedule : List Event :=
  [Event.line "Please input the mouse action", Event.poll, Event.poll]

/-- The secondary (move) token "W" is written although no reader line was
ever classified as a movement prompt: after sending the mouse token the
writer itself sets the move-ready flag (line 156 of the source), so the
secondary write is speculative, refuting the claim that each token is
written only after its matching signal from classified child output. -/
theorem writer_speculative_secondary :
    (dispatchRun "I" "W" (freshDispatch false false) speculativeSchedule).writes
        = ["I", "W"] ∧
    hasMoveLine speculativeSchedule = false := by decide

/-! ### Writer Loop with an explicit pipe: exception propagation

The sends in the command dispatch (lines 153 and 164) call `_send_line`
directly, with no surrounding try/except in `_writer_thread`; an error
raised by the write therefore escapes the loop and kills the thread.  The
`Except`-valued machine models this propagation. -/

def dispatchStepE (p : Pipe) (mouse move : String) (st : DState) (e : Event) :
    Except String DState :=
  match e with
  | .line s => .ok ⟨readerUpdate st.flags s, st.phase, st.writes⟩
  | .poll =>
    match st.phase with
    | .waitMouse =>
      if st.flags.readyMouse then
        match sendLine p (pyOr mouse "U") with
        | .error err => .error err
        | .ok w => .ok ⟨⟨false, true, st.flags.awaitImage⟩, .waitMove,
            st.writes ++ w⟩
      else .ok st
    | .waitMove =>
      if st.flags.readyMove then
        match sendLine p (pyOr move "Q") with
        | .error err => .error err
        | .ok w => .ok ⟨⟨st.flags.readyMouse, false, st.flags.awaitImage⟩,
            .done, st.writes ++ w⟩
      else .ok st
    | .done => .ok st

def dispatchRunE (p : Pipe) (mouse move : String) (st : DState)
    (evs : List Event) : Except String DState :=
  evs.foldl (fun acc e => acc.bind fun s => dispatchStepE p mouse move s e)
    (.ok st)

theorem runE_error_absorb (p : Pipe) (mouse move msg : String) :
    ∀ evs : List Event,
      evs.foldl (fun acc e => acc.bind fun s => dispatchStepE p mouse move s e)
        (Except.error msg) = .error msg := by
  intro evs
  induction evs with
  | nil => rfl
  | cons e evs ih => simpa [List.foldl_cons, Except.bind] using ih

/-- A write to a missing stdin handle is silently skipped (`if p.stdin:`),
but a broken-pipe error raised by an actual write is NOT caught anywhere:
`_send_line` has no handler and neither does the writer loop around its
sends, so the exception propagates out of the whole loop run (the thread
dies with an unhandled exception instead of logging and exiting cleanly). -/
theorem sendLine_broken_propagates (text mouse move : String) (st : DState)
    (evs : List Event) (hp : st.phase = .waitMouse)
    (hr : st.flags.readyMouse = true) :
    sendLine .stdinMissing text = .ok [] ∧
    sendLine .broken text = .error "BrokenPipeError" ∧
    dispatchRunE .broken mouse move st (Event.poll :: evs) =
      .error "BrokenPipeError" := by
  refine ⟨rfl, rfl, ?_⟩
  have hstep : dispatchStepE .broken mouse move st .poll =
      .error "BrokenPipeError" := by
    simp [dispatchStepE, hp, hr, sendLine]
  rw [dispatchRunE, List.foldl_cons]
  simpa [Except.bind, hstep] using
    runE_error_absorb .broken mouse move "BrokenPipeError" evs

theorem sendLine_broken_propagates_witness :
    dispatchRunE .broken "I" "W" ⟨⟨true, false, false⟩, .waitMouse, []⟩
      [Event.poll] = .error "BrokenPipeError" :=
  (sendLine_broken_propagates "x" "I" "W"
    ⟨⟨true, false, false⟩, .waitMouse, []⟩ [] rfl rfl).2.2

/-- On a concrete run where the child dies after prompting, the writer's
send raises and the run ends in the propagated exception, not in a caught,
logged, clean exit: this refutes the claim that a dead-pipe write is
caught and logged rather than propagated. -/
theorem writer_broken_pipe_uncaught :
    dispatchRunE .broken "I" "W" (freshDispatch false false)
      [Event.line "Please input the mouse action", Event.poll] =
      .error "BrokenPipeError" := by
  rfl

/-! ### Reader classification effects (claim about lines 87-111) -/

/-- For every child output line: an image-prompt line (checked first, so
image takes priority on overlap) sets awaiting-image and clears both ready
flags; a mouse-prompt line sets mouse-ready and clears move-ready; a
movement-prompt line sets move-ready leaving mouse-ready unchanged; any
other line changes nothing.  `classifyLine`/`readerUpdate` are total Lean
functions, so classification never raises on any input line. -/
theorem reader_classification (f : Flags) (s : String) :
    (isImageLine s = true → classifyLine s = .image ∧
      readerUpdate f s = ⟨false, false, true⟩) ∧
    (isImageLine s = false → isMouseLine s = true → classifyLine s = .mouse ∧
      readerUpdate f s = ⟨true, false, f.awaitImage⟩) ∧
    (isImageLine s = false → isMouseLine s = false → isMoveLine s = true →
      classifyLine s = .move ∧
      readerUpdate f s = ⟨f.readyMouse, true, f.awaitImage⟩) ∧
    (isImageLine s = false → isMouseLine s = false → isMoveLine s = false →
      classifyLine s = .skip ∧ readerUpdate f s = f) := by
  refine ⟨?_, ?_, ?_, ?_⟩
  · intro h1
    have hc : classifyLine s = .image := by simp [classifyLine, h1]
    exact ⟨hc, by simp [readerUpdate, hc]⟩
  · intro h1 h2
    have hc : classifyLine s = .mouse := by simp [classifyLine, h1, h2]
    exact ⟨hc, by simp [readerUpdate, hc]⟩
  · intro h1 h2 h3
    have hc : classifyLine s = .move := by simp [classifyLine, h1, h2, h3]
    exact ⟨hc, by simp [readerUpdate, hc]⟩
  · intro h1 h2 h3
    have hc : classifyLine s = .skip := by simp [classifyLine, h1, h2, h3]
    exact ⟨hc, by simp [readerUpdate, hc]⟩

theorem reader_classification_witness :
    readerUpdate ⟨true, true, false⟩ "Please input the image path" =
      ⟨false, false, true⟩ ∧
    readerUpdate ⟨false, true, false⟩ "Please input the mouse action" =
      ⟨true, false, false⟩ ∧
    readerUpdate ⟨true, false, false⟩ "PRESS [W, S, A, D, Q]" =
      ⟨true, true, false⟩ ∧
    readerUpdate ⟨true, false, true⟩ "denoising step 7" =
      ⟨true, false, true⟩ :=
  ⟨((reader_classification ⟨true, true, false⟩
      "Please input the image path").1 (by decide)).2,
   ((reader_classification ⟨false, true, false⟩
      "Please input the mouse action").2.1 (by decide) (by decide)).2,
   ((reader_classification ⟨true, false, false⟩
      "PRESS [W, S, A, D, Q]").2.2.1 (by decide) (by decide) (by decide)).2,
   ((reader_classification ⟨true, false, true⟩
      "denoising step 7").2.2.2 (by decide) (by decide) (by decide)).2⟩

/-! ### Paths (`_within`, line 56-63)

Paths are lists of components of an already-resolved absolute path
(`pathlib.Path(...).resolve()` is applied by the code before every
comparison, so resolution is the identity here). -/

/-- Python `os.path.commonpath` on two resolved absolute paths: their longest
common component prefix. -/
def commonPath : List String → List String → List String
  | a :: as, b :: bs => if a = b then a :: commonPath as bs else []
  | _, _ => []

/-- Model of `_within(base, path)`: the common path of the resolved base and the
resolved path equals the base. -/
def within (base p : List String) : Bool := commonPath base p == base

example : within ["images"] ["images", "image.png"] = true := by decide
example : within ["images"] ["etc", "passwd"] = false := by decide

/-! ### Command queue and the writer's dequeue (lines 136-143) -/

inductive Item where
  | cmd (mouse move : String)
  | stop
  deriving DecidableEq, Repr

inductive GetResult where
  | gotCmd (mouse move : String)
  | exitLoop
  | emptyPoll
  deriving DecidableEq, Repr

/-- The writer's queue handling: `_in_q.get(timeout=0.1)` returning
`queue.Empty → continue` on an empty queue, and the sentinel check
`if item == "STOP": break` when an item is dequeued. -/
def writerGet (q : List Item) : GetResult × List Item :=
  match q with
  | [] => (.emptyPoll, [])
  | .stop :: rest => (.exitLoop, rest)
  | .cmd m v :: rest => (.gotCmd m v, rest)

/-! ### Lifecycle Manager (`_stop_proc` 173-195, `_start_proc` 198-218,
`restart` 615-640) -/

structure ServerState where
  procAlive : Bool
  procGen : Nat
  flags : Flags
  cmdQueue : List Item
  currentImage : List String
  outputEntries : List (List String)
  deriving DecidableEq, Repr

/-- Model of `_stop_proc`: terminate (then kill) the current process if alive,
reset the three flags, and drain the command queue with `get_nowait`
until empty.  Nothing is ever enqueued here: in particular no "STOP"
sentinel is pushed into the queue. -/
def stopProc (s : ServerState) : ServerState :=
  ⟨false, s.procGen, ⟨false, false, false⟩, [], s.currentImage,
    s.outputEntries⟩

/-- Model of `_start_proc(img_path)`: raises `RuntimeError` unless the image lies
inside IMAGES_DIR; otherwise spawns the child process (a fresh, alive
process generation) plus fresh reader/writer threads and records the
image as current.  It never assigns `_await_image` (or any other flag),
and it schedules no delayed action of any kind. -/
def startProc (imagesDir imgPath : List String) (s : ServerState) :
    Except String ServerState :=
  if within imagesDir imgPath then
    .ok ⟨true, s.procGen + 1, s.flags, s.cmdQueue, imgPath, s.outputEntries⟩
  else .error "Image must be inside IMAGES_DIR"

inductive RAction where
  | purgeOutputs
  | stopChild
  | startChild
  deriving DecidableEq, Repr

/-- The body of `POST /restart` after image adoption: purge the output
directory if requested (and it exists), then `_stop_proc()`, then invoke
`_start_proc(current image)`.  The second component is the ordered trace
of lifecycle actions executed, each recorded together with whether the
old child process was still alive at that moment (`_start_proc` is always
invoked last, whatever its outcome). -/
def restartBody (imagesDir : List String) (purge outDirExists : Bool)
    (s1 : ServerState) :
    Except String ServerState × List (RAction × Bool) :=
  let purged := purge && outDirExists
  let s2 : ServerState := if purged then { s1 with outputEntries := [] } else s1
  let tr1 : List (RAction × Bool) :=
    if purged then [(.purgeOutputs, s1.procAlive)] else []
  let s3 := stopProc s2
  (startProc imagesDir s3.currentImage s3,
   tr1 ++ [(.stopChild, s2.procAlive), (.startChild, s3.procAlive)])

/-- Model of `POST /restart`: validate and adopt the optional image (client error
on failure, with nothing else executed), then run the purge/stop/start
body. -/
def restartRun (imagesDir : List String) (fsExists : List String → Bool)
    (img : Option (List String)) (purge outDirExists : Bool)
    (s : ServerState) :
    Except String ServerState × List (RAction × Bool) :=
  match img with
  | some p =>
    if within imagesDir p && fsExists p then
      restartBody imagesDir purge outDirExists { s with currentImage := p }
    else (.error "400: Image must be inside IMAGES_DIR", [])
  | none => restartBody imagesDir purge outDirExists s

/-- A session with a live child and two queued commands, about to be
stopped. -/
def busySession : ServerState :=
  ⟨true, 3, ⟨true, true, true⟩, [Item.cmd "I" "W", Item.cmd "U" "Q"],
    ["images", "image.png"], [["run", "clip_current.mp4"]]⟩

/-- Function `_stop_proc` only drains the queue; it never pushes the "STOP"
sentinel, so a writer blocked on the dequeue afterwards observes an empty
queue and keeps polling (`emptyPoll`) instead of dequeuing a sentinel and
exiting.  The sentinel branch of the writer (`exitLoop`) exists but is
dead code: it would only fire if some caller enqueued `Item.stop`, which
none does. -/
theorem stop_drains_without_sentinel :
    (stopProc busySession).cmdQueue = [] ∧
    writerGet (stopProc busySession).cmdQueue = (.emptyPoll, []) ∧
    writerGet [Item.stop] = (.exitLoop, []) := by decide

/-- A freshly booted session before any child process exists. -/
def coldSession : ServerState :=
  ⟨false, 0, ⟨false, false, false⟩, [], ["images", "image.png"], []⟩

/-- Function `_start_proc` on a valid image leaves the awaiting-image flag false:
it neither marks `awaiting = image` immediately after spawning nor
schedules any delayed re-assertion (the embedded function is the whole
body of `_start_proc`, which never assigns `_await_image`).  This refutes
the claim that start sets the flag optimistically. -/
theorem start_leaves_await_image_clear :
    startProc ["images"] ["images", "image.png"] coldSession =
      .ok ⟨true, 1, ⟨false, false, false⟩, [], ["images", "image.png"], []⟩ :=
  rfl

/-- What `_start_proc` actually does: validate containment (raising on
failure), mark a fresh process generation alive, and adopt the image —
with the flags and the queue passed through unchanged. -/
theorem start_proc_spec (imagesDir imgPath : List String) (s : ServerState) :
    (within imagesDir imgPath = true →
      startProc imagesDir imgPath s =
        .ok ⟨true, s.procGen + 1, s.flags, s.cmdQueue, imgPath,
          s.outputEntries⟩) ∧
    (within imagesDir imgPath = false →
      startProc imagesDir imgPath s = .error "Image must be inside IMAGES_DIR") := by
  constructor
  · intro h; simp [startProc, h]
  · intro h; simp [startProc, h]

theorem start_proc_spec_witness :
    startProc ["images"] ["images", "cat.png"] coldSession =
      .ok ⟨true, 1, ⟨false, false, false⟩, [], ["images", "cat.png"], []⟩ :=
  (start_proc_spec ["images"] ["images", "cat.png"] coldSession).1 (by decide)

/-- On a purge-requested restart of a live session, the purge of the
output directory executes first, while the child process is still alive
(`true` recorded next to it), and only afterwards is the process stopped
and restarted.  This refutes the claim that purge happens only after
`stop()`. -/
theorem purge_runs_before_stop :
    (restartRun ["images"] (fun _ => true) none true true busySession).2 =
      [(.purgeOutputs, true), (.stopChild, true), (.startChild, false)] := by
  decide

/-- Order of lifecycle actions on every purge-requested restart (with the
output directory present) that passes image validation: purge first —
executed while the old child process retains whatever liveness it had at
the call, before any stop — then stop, then the start of the new child. -/
theorem restart_purge_order (imagesDir : List String)
    (fsExists : List String → Bool) (p : List String) (s : ServerState) :
    ((restartRun imagesDir fsExists none true true s).2 =
      [(.purgeOutputs, s.procAlive), (.stopChild, s.procAlive),
       (.startChild, false)]) ∧
    ((within imagesDir p && fsExists p) = true →
      (restartRun imagesDir fsExists (some p) true true s).2 =
      [(.purgeOutputs, s.procAlive), (.stopChild, s.procAlive),
       (.startChild, false)]) := by
  constructor
  · simp [restartRun, restartBody, stopProc]
  · intro hv
    simp [restartRun, restartBody, stopProc, hv]

theorem restart_purge_order_witness :
    (restartRun ["images"] (fun _ => true) (some ["images", "cat.png"])
        true true busySession).2 =
      [(.purgeOutputs, busySession.procAlive),
       (.stopChild, busySession.procAlive), (.startChild, false)] :=
  (restart_purge_order ["images"] (fun _ => true) ["images", "cat.png"]
    busySession).2 (by decide)

/-! ### Writer Loop: image branch (lines 117-134) -/

inductive LogEntry where
  | imageNotFound (p : List String)
  | sentToChild (p : List String)
  deriving DecidableEq, Repr

structure WriterState where
  flags : Flags
  logs : List LogEntry
  writes : List (List String)
  deriving DecidableEq, Repr

/-- One execution of the image branch at the top of the writer loop: when
`_await_image` is up, the selected image path (snapshot under the lock) is
resolved and validated; an invalid path — outside IMAGES_DIR or
nonexistent — is only logged, while a valid one is sent to the child's
stdin; in both cases the `finally:` clears the awaiting-image flag.  When
the flag is down the branch does nothing (command dispatch runs instead). -/
def writerImageStep (imagesDir : List String) (fsExists : List String → Bool)
    (curImg : List String) (st : WriterState) : WriterState :=
  if st.flags.awaitImage then
    if !within imagesDir curImg || !fsExists curImg then
      ⟨⟨st.flags.readyMouse, st.flags.readyMove, false⟩,
        st.logs ++ [.imageNotFound curImg], st.writes⟩
    else
      ⟨⟨st.flags.readyMouse, st.flags.readyMove, false⟩,
        st.logs ++ [.sentToChild curImg], st.writes ++ [curImg]⟩
  else st

/-- Servicing an awaiting-image signal clears the flag unconditionally —
also when validation fails and nothing is sent, in which case the failure
is only logged — and with the flag down the branch is a no-op, so a
failed image answer is not retried until the reader raises the flag
again. -/
theorem writer_image_flag_cleared (imagesDir : List String)
    (fsExists : List String → Bool) (curImg : List String)
    (st : WriterState) (h : st.flags.awaitImage = true) :
    (writerImageStep imagesDir fsExists curImg st).flags.awaitImage = false ∧
    ((within imagesDir curImg = false ∨ fsExists curImg = false) →
      (writerImageStep imagesDir fsExists curImg st).writes = st.writes ∧
      (writerImageStep imagesDir fsExists curImg st).logs =
        st.logs ++ [.imageNotFound curImg]) ∧
    (within imagesDir curImg = true → fsExists curImg = true →
      (writerImageStep imagesDir fsExists curImg st).writes =
        st.writes ++ [curImg]) ∧
    (∀ st2 : WriterState, st2.flags.awaitImage = false →
      writerImageStep imagesDir fsExists curImg st2 = st2) := by
  refine ⟨?_, ?_, ?_, ?_⟩
  · by_cases hv : !within imagesDir curImg || !fsExists curImg <;>
      simp [writerImageStep, h, hv]
  · intro hv
    rcases hv with hv | hv <;> simp [writerImageStep, h, hv]
  · intro h1 h2
    simp [writerImageStep, h, h1, h2]
  · intro st2 h2
    simp [writerImageStep, h2]

theorem writer_image_flag_cleared_witness :
    (writerImageStep ["images"] (fun _ => false) ["images", "gone.png"]
      ⟨⟨false, false, true⟩, [], []⟩).flags.awaitImage = false ∧
    (writerImageStep ["images"] (fun _ => false) ["images", "gone.png"]
      ⟨⟨false, false, true⟩, [], []⟩).writes = [] ∧
    (writerImageStep ["images"] (fun _ => false) ["images", "gone.png"]
      ⟨⟨false, false, true⟩, [], []⟩).logs =
      [.imageNotFound ["images", "gone.png"]] :=
  have t := writer_image_flag_cleared ["images"] (fun _ => false)
    ["images", "gone.png"] ⟨⟨false, false, true⟩, [], []⟩ rfl
  ⟨t.1, (t.2.1 (Or.inr rfl)).1, (t.2.1 (Or.inr rfl)).2⟩

/-! ### Range-aware artifact streaming (`current_mp4`, lines 672-711) -/

/-- Python `str.split("-")`. -/
def splitDash : List Char → List (List Char)
  | [] => [[]]
  | c :: cs =>
    if c = '-' then [] :: splitDash cs
    else
      match splitDash cs with
      | [] => [[c]]
      | p :: ps => (c :: p) :: ps

/-- Python `str.replace(pat, "")`: removes every non-overlapping
occurrence of `pat`, scanning left to right.  Structural recursion on a
fuel bounded by the text length (each step consumes at least one
character, so the fuel never runs out). -/
def removeAllFuel (pat : List Char) : Nat → List Char → List Char
  | 0, _ => []
  | _ + 1, [] => []
  | fuel + 1, c :: cs =>
    if startsW pat (c :: cs) && !pat.isEmpty then
      removeAllFuel pat fuel (List.drop (pat.length - 1) cs)
    else c :: removeAllFuel pat fuel cs

def removeAll (pat l : List Char) : List Char := removeAllFuel pat l.length l

/-- ASCII whitespace stripped by Python `int()`. -/
def isPySpace (c : Char) : Bool := c = ' ' || c = '\t' || c = '\n' || c = '\r'

/-- Decimal digit accumulation; `none` on any non-digit. -/
def digitsAcc (acc : Nat) : List Char → Option Nat
  | [] => some acc
  | c :: cs =>
    if 48 ≤ c.toNat && c.toNat ≤ 57 then
      digitsAcc (acc * 10 + (c.toNat - 48)) cs
    else none

/-- Python `int(str)`: optional surrounding whitespace, an optional sign,
then at least one decimal digit; anything else raises, modelled as
`none`.  (Python also accepts underscore digit grouping, which no Range
header in the claims uses; omitted.) -/
def pyInt (l : List Char) : Option Int :=
  let t := ((l.dropWhile isPySpace).reverse.dropWhile isPySpace).reverse
  match t with
  | '-' :: rest =>
    if rest.isEmpty then none
    else (digitsAcc 0 rest).map (fun n => -(n : Int))
  | '+' :: rest =>
    if rest.isEmpty then none
    else (digitsAcc 0 rest).map (fun n => (n : Int))
  | _ =>
    if t.isEmpty then none
    else (digitsAcc 0 t).map (fun n => (n : Int))

example : pyInt "99".data = some 99 := by decide
example : pyInt "-7".data = some (-7) := by decide
example : pyInt "abc".data = none := by decide

/-- The body of the `try:` in `current_mp4`: strip `bytes=`, split on
dashes; an empty first part defaults to 0 and a missing/empty second part
defaults to `fileSize - 1`; `none` when `int()` raises. -/
def rangeParse (r : String) (fileSize : Int) : Option (Int × Int) :=
  let parts := splitDash (removeAll "bytes=".data r.data)
  let p0 := parts.headD []
  let s0 : Option Int := if p0.isEmpty then some 0 else pyInt p0
  let e0 : Option Int :=
    if 1 < parts.length then
      if (parts.getD 1 []).isEmpty then some (fileSize - 1)
      else pyInt (parts.getD 1 [])
    else some (fileSize - 1)
  match s0, e0 with
  | some a, some b => some (a, b)
  | _, _ => none

/-- Computation of `[start, end]` from the optional `Range` header: an
absent/empty header or one not starting with `bytes=` gives the full
file; otherwise the header is parsed, with a parse failure silently
replaced by the full-file range, and both endpoints are clamped
(`start = max(0, start)`, `end = min(end, file_size - 1)`). -/
def rangeOf (rangeHeader : Option String) (fileSize : Int) : Int × Int :=
  match rangeHeader with
  | some r =>
    if !r.isEmpty && startsW "bytes=".data r.data then
      let raw := (rangeParse r fileSize).getD (0, fileSize - 1)
      (max 0 raw.1, min raw.2 (fileSize - 1))
    else (0, fileSize - 1)
  | none => (0, fileSize - 1)

/-- One `f.read(min(chunk, remaining))` at byte offset `pos`. -/
def chunkData (file : List Nat) (pos : Nat) (remaining : Int) (chunk : Nat) :
    List Nat :=
  (file.drop pos).take (min chunk remaining.toNat)

/-- The `_read()` generator: sequential bounded-chunk reads starting at
the seek offset, stopping after `remaining` bytes or at an early
end-of-file (an empty read breaks, it is not an error). -/
def readChunks (file : List Nat) (pos : Nat) (remaining : Int)
    (chunk : Nat) : List Nat :=
  if h : 0 < remaining then
    if hd : chunkData file pos remaining chunk = [] then []
    else
      chunkData file pos remaining chunk ++
        readChunks file (pos + (chunkData file pos remaining chunk).length)
          (remaining - (chunkData file pos remaining chunk).length) chunk
  else []
termination_by remaining.toNat
decreasing_by
  have hk : 0 < (chunkData file pos remaining chunk).length :=
    List.length_pos.mpr hd
  omega

structure RangeResponse where
  status : Nat
  rStart : Int
  rEnd : Int
  contentLength : Int
  contentRange : String
  body : List Nat
  deriving DecidableEq, Repr

/-- Model of `current_mp4` on an existing artifact file: compute the clamped
range, stream it in 1 MiB chunks, and answer 206 exactly when a truthy
`Range` header was present (200 otherwise), with `Content-Length` and
`Content-Range` derived from the computed range. -/
def serveRange (file : List Nat) (rangeHeader : Option String) :
    RangeResponse :=
  let fileSize : Int := (file.length : Int)
  let truthy := match rangeHeader with
    | none => false
    | some s => !s.isEmpty
  let se := rangeOf rangeHeader fileSize
  { status := if truthy then 206 else 200
    rStart := se.1
    rEnd := se.2
    contentLength := se.2 - se.1 + 1
    contentRange := "bytes " ++ toString se.1 ++ "-" ++ toString se.2 ++
      "/" ++ toString fileSize
    body := readChunks file se.1.toNat (se.2 - se.1 + 1) (1024 * 1024) }

/-- The chunked read loop returns exactly the requested byte window of
the file: `remaining` bytes starting at `pos` (fewer if the file ends
early, none if `remaining` is not positive). -/
theorem readChunks_eq_take (chunk : Nat) (hc : 0 < chunk) :
    ∀ (n : Nat) (file : List Nat) (pos : Nat) (remaining : Int),
      remaining.toNat ≤ n →
      readChunks file pos remaining chunk =
        (file.drop pos).take remaining.toNat := by
  intro n
  induction n with
  | zero =>
    intro file pos remaining hr
    have h0 : ¬ 0 < remaining := by omega
    have ht : remaining.toNat = 0 := by omega
    rw [readChunks, dif_neg h0, ht]
    simp
  | succ n ih =>
    intro file pos remaining hr
    by_cases h : 0 < remaining
    · rw [readChunks, dif_pos h]
      by_cases hd : chunkData file pos remaining chunk = []
      · rw [dif_pos hd]
        have hrt : 0 < remaining.toNat := by omega
        have hnil : file.drop pos = [] := by
          rcases List.take_eq_nil_iff.mp hd with h1 | h1
          · rcases Nat.le_total chunk remaining.toNat with hm | hm
            · rw [Nat.min_eq_left hm] at h1; omega
            · rw [Nat.min_eq_right hm] at h1; omega
          · exact h1
        rw [hnil]
        simp
      · rw [dif_neg hd]
        have hlen : 0 < (chunkData file pos remaining chunk).length :=
          List.length_pos.mpr hd
        have hL : (chunkData file pos remaining chunk).length =
            min (min chunk remaining.toNat) (file.drop pos).length := by
          rw [chunkData, List.length_take]
        have hLr : (chunkData file pos remaining chunk).length ≤
            remaining.toNat := by
          rw [hL]
          exact le_trans (Nat.min_le_left _ _) (Nat.min_le_right _ _)
        have hrec := ih file (pos + (chunkData file pos remaining chunk).length)
          (remaining - (chunkData file pos remaining chunk).length) (by omega)
        rw [hrec]
        have htn : (remaining -
            ((chunkData file pos remaining chunk).length : Int)).toNat =
            remaining.toNat - (chunkData file pos remaining chunk).length := by
          omega
        rw [htn]
        have hdd : file.drop (pos + (chunkData file pos remaining chunk).length) =
            (file.drop pos).drop (chunkData file pos remaining chunk).length := by
          rw [List.drop_drop]
        rw [hdd]
        have hdl : (file.drop pos).take
            (chunkData file pos remaining chunk).length =
            chunkData file pos remaining chunk := by
          rw [hL, chunkData]
          rcases Nat.le_total (min chunk remaining.toNat)
              (file.drop pos).length with hml | hml
          · rw [Nat.min_eq_left hml]
          · rw [Nat.min_eq_right hml, List.take_length,
              List.take_of_length_le hml]
        have hsplit : remaining.toNat =
            (chunkData file pos remaining chunk).length +
            (remaining.toNat - (chunkData file pos remaining chunk).length) := by
          omega
        rw [hsplit, List.take_add, hdl]
        simp only [Nat.add_sub_cancel_left]
    · rw [readChunks, dif_neg h]
      have ht : remaining.toNat = 0 := by omega
      rw [ht]
      simp

/-- The full-file read. -/
theorem readChunks_full (file : List Nat) :
    readChunks file 0 (file.length : Int) (1024 * 1024) = file := by
  rw [readChunks_eq_take (1024 * 1024) (by norm_num) (file.length : Int).toNat
    file 0 (file.length : Int) le_rfl]
  simp

theorem serveRange_rStart (file : List Nat) (hdr : Option String) :
    (serveRange file hdr).rStart = (rangeOf hdr (file.length : Int)).1 := rfl

theorem serveRange_rEnd (file : List Nat) (hdr : Option String) :
    (serveRange file hdr).rEnd = (rangeOf hdr (file.length : Int)).2 := rfl

theorem serveRange_body (file : List Nat) (hdr : Option String) :
    (serveRange file hdr).body =
      readChunks file (rangeOf hdr (file.length : Int)).1.toNat
        ((rangeOf hdr (file.length : Int)).2 -
          (rangeOf hdr (file.length : Int)).1 + 1) (1024 * 1024) := rfl

theorem serveRange_contentRange (file : List Nat) (hdr : Option String) :
    (serveRange file hdr).contentRange =
      "bytes " ++ toString (rangeOf hdr (file.length : Int)).1 ++ "-" ++
        toString (rangeOf hdr (file.length : Int)).2 ++ "/" ++
        toString (file.length : Int) := rfl

/-- When the computed range is the full file, the response carries the
whole file. -/
theorem serveRange_full_of (file : List Nat) (hdr : Option String)
    (hse : rangeOf hdr (file.length : Int) = (0, (file.length : Int) - 1)) :
    (serveRange file hdr).rStart = 0 ∧
    (serveRange file hdr).rEnd = (file.length : Int) - 1 ∧
    (serveRange file hdr).body = file := by
  refine ⟨by rw [serveRange_rStart, hse], by rw [serveRange_rEnd, hse], ?_⟩
  rw [serveRange_body, hse]
  show readChunks file ((0 : Int)).toNat ((file.length : Int) - 1 - 0 + 1)
    (1024 * 1024) = file
  have harith : (file.length : Int) - 1 - 0 + 1 = (file.length : Int) := by
    omega
  rw [harith, show ((0 : Int)).toNat = 0 from rfl]
  exact readChunks_full file

/-- The `serveRange` contract: with no `Range` header the whole file is
served with status 200; `bytes=0-99` on a 1000-byte file yields status
206, exactly the first 100 bytes and `Content-Range: bytes 0-99/1000`;
and a malformed header — one not of the `bytes=` form, or whose endpoints
fail to parse as integers — is silently replaced by the full-file range
instead of being rejected. -/
theorem serve_range_contract (file : List Nat) (r : String) :
    ((serveRange file none).status = 200 ∧ (serveRange file none).body = file) ∧
    (file.length = 1000 →
      (serveRange file (some "bytes=0-99")).status = 206 ∧
      (serveRange file (some "bytes=0-99")).body = file.take 100 ∧
      (serveRange file (some "bytes=0-99")).body.length = 100 ∧
      (serveRange file (some "bytes=0-99")).contentRange =
        "bytes 0-99/1000") ∧
    ((startsW "bytes=".data r.data = false ∨
        rangeParse r (file.length : Int) = none) →
      (serveRange file (some r)).rStart = 0 ∧
      (serveRange file (some r)).rEnd = (file.length : Int) - 1 ∧
      (serveRange file (some r)).body = file) := by
  refine ⟨⟨rfl, ?_⟩, ?_, ?_⟩
  · exact (serveRange_full_of file none rfl).2.2
  · intro h1000
    have hfs : (file.length : Int) = 1000 := by simp [h1000]
    have hse : rangeOf (some "bytes=0-99") (file.length : Int) = (0, 99) := by
      rw [hfs]; decide
    refine ⟨rfl, ?_, ?_, ?_⟩
    · rw [serveRange_body, hse]
      show readChunks file ((0 : Int)).toNat ((99 : Int) - 0 + 1)
        (1024 * 1024) = file.take 100
      rw [show (99 : Int) - 0 + 1 = 100 from by norm_num,
        show ((0 : Int)).toNat = 0 from rfl,
        readChunks_eq_take (1024 * 1024) (by norm_num) 100 file 0 100
          (by norm_num)]
      simp
    · rw [serveRange_body, hse]
      show (readChunks file ((0 : Int)).toNat ((99 : Int) - 0 + 1)
        (1024 * 1024)).length = 100
      rw [show (99 : Int) - 0 + 1 = 100 from by norm_num,
        show ((0 : Int)).toNat = 0 from rfl,
        readChunks_eq_take (1024 * 1024) (by norm_num) 100 file 0 100
          (by norm_num)]
      simp [List.length_take, h1000]
    · rw [serveRange_contentRange, hse, hfs]
      decide
  · intro hor
    have hse : rangeOf (some r) (file.length : Int) =
        (0, (file.length : Int) - 1) := by
      rcases hor with hsw | hpn
      · simp [rangeOf, hsw]
      · by_cases hemp : r.isEmpty = true
        · simp [rangeOf, hemp]
        · have hemp2 : r.isEmpty = false := by simpa using hemp
          by_cases hsw : startsW "bytes=".data r.data = true
          · simp only [rangeOf, hemp2, hsw, hpn, Option.getD,
              Bool.not_false, Bool.and_self, if_true]
            simp
          · have hsw2 : startsW "bytes=".data r.data = false := by
              simpa using hsw
            simp [rangeOf, hsw2]
    exact serveRange_full_of file (some r) hse

set_option maxRecDepth 4000 in
theorem serve_range_contract_witness :
    (serveRange (List.replicate 1000 0) (some "bytes=0-99")).status = 206 ∧
    (serveRange (List.replicate 1000 0) (some "bytes=0-99")).body =
      (List.replicate 1000 0).take 100 ∧
    (serveRange (List.replicate 1000 0) (some "bytes=0-99")).body.length =
      100 ∧
    (serveRange (List.replicate 1000 0) (some "bytes=0-99")).contentRange =
      "bytes 0-99/1000" :=
  (serve_range_contract (List.replicate 1000 0) "bytes=oops").2.1 (by simp)

/-- Safety of `serveRange`: it never fails — the range it computes always has
`0 ≤ start` and `end ≤ fileSize - 1`, and when the clamped start exceeds
the clamped end (for instance a requested start beyond the file size) the
body is simply empty — the response is still produced. -/
theorem serve_range_clamped (file : List Nat) (hdr : Option String) :
    0 ≤ (serveRange file hdr).rStart ∧
    (serveRange file hdr).rEnd ≤ (file.length : Int) - 1 ∧
    ((serveRange file hdr).rEnd < (serveRange file hdr).rStart →
      (serveRange file hdr).body = []) := by
  have hbound : 0 ≤ (rangeOf hdr (file.length : Int)).1 ∧
      (rangeOf hdr (file.length : Int)).2 ≤ (file.length : Int) - 1 := by
    cases hdr with
    | none => exact ⟨le_refl 0, le_refl _⟩
    | some r =>
      by_cases hc : (!r.isEmpty && startsW "bytes=".data r.data) = true
      · simp [rangeOf, hc, le_max_left, min_le_right]
      · have hc2 : (!r.isEmpty && startsW "bytes=".data r.data) = false := by
          revert hc
          cases (!r.isEmpty && startsW "bytes=".data r.data) <;> simp
        simp [rangeOf, hc2]
  refine ⟨by rw [serveRange_rStart]; exact hbound.1,
    by rw [serveRange_rEnd]; exact hbound.2, ?_⟩
  intro hlt
  rw [serveRange_rEnd, serveRange_rStart] at hlt
  rw [serveRange_body, readChunks, dif_neg (by omega)]

theorem serve_range_clamped_witness :
    (serveRange [1, 2, 3] (some "bytes=9-")).body = [] :=
  (serve_range_clamped [1, 2, 3] (some "bytes=9-")).2.2 (by decide)

/-! ### `POST /cmd` (lines 644-650)

`mouse = (data.get("mouse") or "U").upper()[0]` and likewise for `move`
with default `"Q"`, then the pair is enqueued and echoed with
`{"ok": True, ...}`.  A missing field and a JSON `null` are both `None`
(`none` here); the empty string is falsy, so it also falls back to the
default.  ASCII case mapping (`Char.toUpper`/`Char.toLower`) models
Python's `str.upper`/`str.lower` on the single-character tokens this
endpoint receives. -/

/-- Python `x or default` on an optional string field. -/
def pyOrStr (v : Option String) (d : String) : String :=
  match v with
  | none => d
  | some s => if s = "" then d else s

def lowerStr (s : String) : String := String.mk (s.data.map Char.toLower)

/-- Python `.upper()[0]` packaged as one total operation on a nonempty string
(`[0]` on the result of `.upper()` of a nonempty string is its first
character). -/
def upperFirst (s : String) : String :=
  String.mk ((s.data.map Char.toUpper).take 1)

structure CmdResult where
  ok : Bool
  mouse : String
  move : String
  queueAfter : List Item
  deriving DecidableEq, Repr

def cmdEndpoint (mouseField moveField : Option String) (q : List Item) :
    CmdResult :=
  let mouse := upperFirst (pyOrStr mouseField "U")
  let move := upperFirst (pyOrStr moveField "Q")
  ⟨true, mouse, move, q ++ [Item.cmd mouse move]⟩

theorem toLower_eval (c : Char) :
    Char.toLower c =
      if 65 ≤ c.toNat ∧ c.toNat ≤ 90 then Char.ofNat (c.toNat + 32) else c :=
  rfl

theorem toUpper_eval (c : Char) :
    Char.toUpper c =
      if 97 ≤ c.toNat ∧ c.toNat ≤ 122 then Char.ofNat (c.toNat - 32) else c :=
  rfl

theorem char_toNat_ofNat {n : Nat} (h : n < 55296) :
    (Char.ofNat n).toNat = n := by
  have hv : n.isValidChar := Or.inl h
  rw [Char.ofNat, dif_pos hv]
  simp [Char.ofNatAux, Char.toNat, UInt32.toNat, BitVec.toNat_ofNatLt]

/-- ASCII case mapping: uppercasing after lowercasing equals uppercasing. -/
theorem toUpper_toLower (c : Char) :
    (Char.toLower c).toUpper = c.toUpper := by
  rw [toLower_eval c]
  by_cases h : 65 ≤ c.toNat ∧ c.toNat ≤ 90
  · rw [if_pos h, toUpper_eval, toUpper_eval c,
      char_toNat_ofNat (show c.toNat + 32 < 55296 by omega)]
    rw [if_pos (by omega), if_neg (by omega)]
    rw [show c.toNat + 32 - 32 = c.toNat from by omega, Char.ofNat_toNat]
  · rw [if_neg h]

/-- The result of `Char.toUpper` is never a lowercase ASCII letter. -/
theorem toUpper_not_lower (c : Char) :
    ¬(97 ≤ (Char.toUpper c).toNat ∧ (Char.toUpper c).toNat ≤ 122) := by
  rw [toUpper_eval c]
  by_cases h : 97 ≤ c.toNat ∧ c.toNat ≤ 122
  · rw [if_pos h, char_toNat_ofNat (show c.toNat - 32 < 55296 by omega)]
    omega
  · rw [if_neg h]
    exact h

theorem upperFirst_length (s : String) (h : s ≠ "") :
    (upperFirst s).length = 1 := by
  cases s with
  | mk dat =>
    cases dat with
    | nil => exact absurd rfl h
    | cons c cs => simp [upperFirst, String.length]

theorem pyOrStr_ne (v : Option String) (d : String) (hd : d ≠ "") :
    pyOrStr v d ≠ "" := by
  cases v with
  | none => exact hd
  | some s =>
    simp only [pyOrStr]
    split
    · exact hd
    · assumption

/-- Normalizing an already-lowercased field yields the same token as
normalizing the original (for any default). -/
theorem upperFirst_pyOrStr_lower (s d : String) :
    upperFirst (pyOrStr (some (lowerStr s)) d) =
      upperFirst (pyOrStr (some s) d) := by
  by_cases hs : s = ""
  · subst hs; rfl
  · have hs2 : lowerStr s ≠ "" := by
      cases s with
      | mk dat =>
        cases dat with
        | nil => exact absurd rfl hs
        | cons c cs =>
          intro hcon
          have := congrArg String.data hcon
          simp [lowerStr] at this
    rw [show pyOrStr (some (lowerStr s)) d = lowerStr s from by
          simp [pyOrStr, hs2],
        show pyOrStr (some s) d = s from by simp [pyOrStr, hs]]
    have hfun : Char.toUpper ∘ Char.toLower = Char.toUpper :=
      funext fun c => toUpper_toLower c
    simp [upperFirst, lowerStr, List.map_map, hfun]

/-- No character of a normalized token is a lowercase ASCII letter. -/
theorem upperFirst_pyOrStr_not_lower (v : Option String) (d : String)
    (c : Char) (hc : c ∈ (upperFirst (pyOrStr v d)).data) :
    ¬(97 ≤ c.toNat ∧ c.toNat ≤ 122) := by
  have hc2 : c ∈ (pyOrStr v d).data.map Char.toUpper :=
    List.mem_of_mem_take hc
  rcases List.mem_map.mp hc2 with ⟨a, _, rfl⟩
  exact toUpper_not_lower a

/-- The `POST /cmd` contract: a missing/null or empty mouse (primary)
field yields the default "U" and a missing/null or empty move (secondary)
field the default "Q"; both normalized tokens are single characters,
neither contains any lowercase ASCII letter, and each is unchanged by
lowercasing its input field (case-insensitive); the endpoint always
answers ok and enqueues exactly the echoed pair, for every request
body. -/
theorem cmd_endpoint_contract (mf vf : Option String) (q : List Item)
    (s : String) :
    (cmdEndpoint mf vf q).ok = true ∧
    ((mf = none ∨ mf = some "") → (cmdEndpoint mf vf q).mouse = "U") ∧
    ((vf = none ∨ vf = some "") → (cmdEndpoint mf vf q).move = "Q") ∧
    (cmdEndpoint mf vf q).mouse.length = 1 ∧
    (cmdEndpoint mf vf q).move.length = 1 ∧
    (∀ c ∈ (cmdEndpoint mf vf q).mouse.data,
      ¬(97 ≤ c.toNat ∧ c.toNat ≤ 122)) ∧
    (∀ c ∈ (cmdEndpoint mf vf q).move.data,
      ¬(97 ≤ c.toNat ∧ c.toNat ≤ 122)) ∧
    cmdEndpoint (some (lowerStr s)) vf q = cmdEndpoint (some s) vf q ∧
    cmdEndpoint mf (some (lowerStr s)) q = cmdEndpoint mf (some s) q ∧
    (cmdEndpoint mf vf q).queueAfter =
      q ++ [Item.cmd (cmdEndpoint mf vf q).mouse (cmdEndpoint mf vf q).move] := by
  refine ⟨rfl, ?_, ?_, ?_, ?_, ?_, ?_, ?_, ?_, rfl⟩
  · rintro (rfl | rfl) <;> rfl
  · rintro (rfl | rfl) <;> rfl
  · exact upperFirst_length _ (pyOrStr_ne mf "U" (by decide))
  · exact upperFirst_length _ (pyOrStr_ne vf "Q" (by decide))
  · exact upperFirst_pyOrStr_not_lower mf "U"
  · exact upperFirst_pyOrStr_not_lower vf "Q"
  · have hm := upperFirst_pyOrStr_lower s "U"
    simp [cmdEndpoint, hm]
  · have hm := upperFirst_pyOrStr_lower s "Q"
    simp [cmdEndpoint, hm]

theorem cmd_endpoint_contract_witness :
    (cmdEndpoint none (some "") []).ok = true ∧
    (cmdEndpoint none (some "") []).mouse = "U" ∧
    (cmdEndpoint none (some "") []).move = "Q" ∧
    cmdEndpoint (some (lowerStr "W")) none [] =
      cmdEndpoint (some "W") none [] ∧
    cmdEndpoint none (some (lowerStr "W")) [] =
      cmdEndpoint none (some "W") [] :=
  ⟨(cmd_endpoint_contract none (some "") [] "x").1,
   (cmd_endpoint_contract none (some "") [] "x").2.1 (Or.inl rfl),
   (cmd_endpoint_contract none (some "") [] "x").2.2.1 (Or.inr rfl),
   (cmd_endpoint_contract (some "w") none [] "W").2.2.2.2.2.2.2.1,
   (cmd_endpoint_contract none (some "w") [] "W").2.2.2.2.2.2.2.2.1⟩

end Matrix2Srv
